import Mathlib

/-!
Shallow embedding of the task-management core of the rCore-based kernel
(`src/os/src/task/mod.rs`, `src/os/src/task/processor.rs`,
`src/os/src/syscall/mod.rs`, `src/os/src/syscall/process.rs`,
`src/os/src/task/task.rs`), together with theorems checking the
natural-language specification against it.

Modelling conventions:
* Rust `usize` / `u64` values (timestamps, indices, lengths) are `Nat`.
  `u32` syscall counters wrap at `2 ^ 32`, modelled with an explicit `% 2 ^ 32`.
* Fixed-size Rust arrays (`[u32; MAX_SYSCALL_NUM]`, `[TaskControlBlock; MAX_APP_NUM]`)
  are `List`s; an out-of-bounds index, which panics in Rust, is modelled by an
  `Option`-returning function yielding `none`.
* Clock reads (`get_time_ms`, `get_time_us`) are passed in as an explicit `now`
  argument; the several reads inside one short exclusive-access window of a
  single function are modelled as one reading.
* Raw user pointers are modelled as `Option` cells: `none` is the null pointer,
  `some v` is a valid cell currently holding `v`.  A handler returns the pair
  (result, cell after the call), so "output left unmodified" is expressible.
-/

namespace RCore

/-- Task status, from `src/os/src/task/task.rs` (`enum TaskStatus`). -/
inductive TaskStatus
  | UnInit
  | Ready
  | Running
  | Exited
deriving DecidableEq, Repr

/-- Task control block as used by `src/os/src/task/mod.rs`
(`TaskControlBlock` fields referenced there: `task_status`,
`task_syscall_times : [u32; MAX_SYSCALL_NUM]`,
`syscall_timestamps : [usize; MAX_SYSCALL_NUM]`, `task_time : usize`,
`first_scheduled_time : Option<usize>`).  The saved register context
(`task_cx`) plays no role in any property here and is omitted. -/
structure TCB where
  task_status : TaskStatus
  task_syscall_times : List Nat
  syscall_timestamps : List Nat
  task_time : Nat
  first_scheduled_time : Option Nat
deriving DecidableEq, Repr

/-- `TaskManager` + `TaskManagerInner` from `src/os/src/task/mod.rs`:
`num_app` tasks stored in a `MAX_APP_NUM`-sized array (`tasks`), plus the
index of the current task. -/
structure TaskManager where
  num_app : Nat
  tasks : List TCB
  current_task : Nat
deriving DecidableEq, Repr

/-- In-place update of one slot of the task array
(`inner.tasks[i] = ...` / field assignment through `&mut`). -/
def updateAt (f : TCB → TCB) : Nat → List TCB → List TCB
  | _, [] => []
  | 0, t :: ts => f t :: ts
  | Nat.succ i, t :: ts => t :: updateAt f i ts

/-- `inner.tasks[id].task_status == TaskStatus::Ready` as a Bool
(used inside the `find` closure of the scheduler). -/
def statusReadyAt (tasks : List TCB) (id : Nat) : Bool :=
  match tasks.get? id with
  | some t => t.task_status = TaskStatus.Ready
  | none => false

/-- `TaskManager::find_next_task` (`src/os/src/task/mod.rs:120-126`):
`(current + 1..current + num_app + 1).map(|id| id % num_app)
   .find(|id| tasks[*id].task_status == Ready)`.
The Rust iterator visits `current+1+k` for `k = 0, …, num_app-1`; for
`num_app = 0` the range is empty and yields `None` without touching `%`. -/
def find_next_task (tm : TaskManager) : Option Nat :=
  ((List.range tm.num_app).map
      (fun k => (tm.current_task + 1 + k) % tm.num_app)).find?
    (fun id => statusReadyAt tm.tasks id)

/-- `tasks[current].task_status = TaskStatus::Ready`
(`src/os/src/task/mod.rs:107`). -/
def setReady (t : TCB) : TCB := { t with task_status := TaskStatus.Ready }

/-- `tasks[current].task_status = TaskStatus::Exited`
(`src/os/src/task/mod.rs:114`). -/
def setExited (t : TCB) : TCB := { t with task_status := TaskStatus.Exited }

/-- `TaskManager::mark_current_suspended` (`src/os/src/task/mod.rs:104-108`):
status of the current task becomes `Ready`. -/
def mark_current_suspended (tm : TaskManager) : TaskManager :=
  let ts := updateAt setReady tm.current_task tm.tasks
  { tm with tasks := ts }

/-- `TaskManager::mark_current_exited` (`src/os/src/task/mod.rs:111-115`):
status of the current task becomes `Exited`. -/
def mark_current_exited (tm : TaskManager) : TaskManager :=
  let ts := updateAt setExited tm.current_task tm.tasks
  { tm with tasks := ts }

/-- The guarded stamp both dispatch paths perform
(`src/os/src/task/mod.rs:89-91` and `139-141`):
`if t.first_scheduled_time.is_none() { t.first_scheduled_time = Some(now) }`. -/
def stampFirst (now : Nat) (t : TCB) : TCB :=
  if t.first_scheduled_time = none
  then { t with first_scheduled_time := some now } else t

/-- `tasks[next].task_status = TaskStatus::Running`
(`src/os/src/task/mod.rs:134`). -/
def setRunning (t : TCB) : TCB := { t with task_status := TaskStatus.Running }

/-- `tasks[current].task_time = get_time_ms() - tasks[current].task_time`
(`src/os/src/task/mod.rs:135`). -/
def stopClock (now : Nat) (t : TCB) : TCB :=
  { t with task_time := now - t.task_time }

/-- `tasks[next].task_time = get_time_ms()`
(`src/os/src/task/mod.rs:136`). -/
def startClock (now : Nat) (t : TCB) : TCB := { t with task_time := now }

/-- `task0.task_status = Running; task0.task_time = get_time_ms();`
(`src/os/src/task/mod.rs:85-86`). -/
def bootDispatch (now : Nat) (t : TCB) : TCB :=
  { t with task_status := TaskStatus.Running, task_time := now }

/-- `TaskManager::run_first_task` (`src/os/src/task/mod.rs:82-101`), state
part only (the `__switch` at the end transfers control and is outside the
data model): `tasks[0].task_status = Running; tasks[0].task_time = now;
if tasks[0].first_scheduled_time.is_none() { … = Some(now) }`. -/
def run_first_task (now : Nat) (tm : TaskManager) : TaskManager :=
  let t1 := updateAt (bootDispatch now) 0 tm.tasks
  let t2 := updateAt (stampFirst now) 0 t1
  { tm with tasks := t2 }

/-- `TaskManager::run_next_task` (`src/os/src/task/mod.rs:130-154`), state
part only.  When `find_next_task` yields a task the source performs, in
order: `tasks[next].task_status = Running`;
`tasks[current].task_time = now - tasks[current].task_time`;
`tasks[next].task_time = now`; if `tasks[next].first_scheduled_time` is
`None`, set it to `Some(now)`; `current_task = next`; then `__switch`.
When no task is ready it panics (`"All applications completed!"`),
modelled as `none`.  (Rust `usize` subtraction is modelled by `Nat`
subtraction; in the kernel `now` is never below the stored dispatch
time.) -/
def run_next_task (now : Nat) (tm : TaskManager) : Option TaskManager :=
  match find_next_task tm with
  | some next =>
    let t1 := updateAt setRunning next tm.tasks
    let t2 := updateAt (stopClock now) tm.current_task t1
    let t3 := updateAt (startClock now) next t2
    let t4 := updateAt (stampFirst now) next t3
    some { tm with tasks := t4, current_task := next }
  | none => none

/-- `suspend_current_and_run_next` (`src/os/src/task/mod.rs:219-222`):
`mark_current_suspended(); run_next_task();`. -/
def suspend_current_and_run_next (now : Nat) (tm : TaskManager) :
    Option TaskManager :=
  run_next_task now (mark_current_suspended tm)

/-- `exit_current_and_run_next` (`src/os/src/task/mod.rs:225-228`):
`mark_current_exited(); run_next_task();`. -/
def exit_current_and_run_next (now : Nat) (tm : TaskManager) :
    Option TaskManager :=
  run_next_task now (mark_current_exited tm)

/-- `TaskManager::update_syscall_times` (`src/os/src/task/mod.rs:166-173`):
`tasks[current].task_syscall_times[syscall_id] += 1;
tasks[current].syscall_timestamps[syscall_id] = get_time_ms();`.
Both arrays have fixed length `MAX_SYSCALL_NUM`; an id outside that bound
panics in Rust (index out of bounds), modelled as `none` in
`update_syscall_times` below.  `recordTimes` is the per-TCB field update
the two assignments perform; the `u32` counter wraps at `2 ^ 32`. -/
def recordTimes (now syscall_id : Nat) (tcb : TCB) : TCB :=
  { tcb with
    task_syscall_times := tcb.task_syscall_times.set syscall_id
      ((tcb.task_syscall_times.getD syscall_id 0 + 1) % 2 ^ 32),
    syscall_timestamps := tcb.syscall_timestamps.set syscall_id now }

/-- `TaskManager::update_syscall_times`, the state transition: apply
`recordTimes` to the current task when the id is within the array
bounds, panic (`none`) otherwise. -/
def update_syscall_times (now syscall_id : Nat) (tm : TaskManager) :
    Option TaskManager :=
  match tm.tasks.get? tm.current_task with
  | none => none
  | some t =>
    if syscall_id < t.task_syscall_times.length ∧
        syscall_id < t.syscall_timestamps.length then
      let ts := updateAt (recordTimes now syscall_id) tm.current_task tm.tasks
      some { tm with tasks := ts }
    else none

/-- `TaskManager::get_syscall_times` (`src/os/src/task/mod.rs:156-159`):
returns the `task_syscall_times` of the current task.  (The kernel only calls
this while a task is running, so `current_task` is in bounds; out of
bounds we return the empty array.) -/
def get_syscall_times (tm : TaskManager) : List Nat :=
  match tm.tasks.get? tm.current_task with
  | some t => t.task_syscall_times
  | none => []

/-- `TaskManager::get_current_task_time` (`src/os/src/task/mod.rs:161-164`):
returns the `task_time` of the current task. -/
def get_current_task_time (tm : TaskManager) : Nat :=
  match tm.tasks.get? tm.current_task with
  | some t => t.task_time
  | none => 0

/-- The TCB value every slot holds before the boot loop runs
(`src/os/src/task/mod.rs:54-61`): status `UnInit`, zeroed telemetry,
`first_scheduled_time = None`.  Array lengths are `MAX_SYSCALL_NUM`,
passed in as `maxSyscallNum` (the value lives in `config.rs`, which is
not part of the sources). -/
def initTCB (maxSyscallNum : Nat) : TCB :=
  { task_status := TaskStatus.UnInit
    task_syscall_times := List.replicate maxSyscallNum 0
    syscall_timestamps := List.replicate maxSyscallNum 0
    task_time := 0
    first_scheduled_time := none }

/-- The `TASK_MANAGER` initial state (`src/os/src/task/mod.rs:51-76`):
a `MAX_APP_NUM`-sized array of `initTCB`s whose status the boot loop sets
to `Ready` for every slot (the `for` loop iterates over the whole array),
`current_task = 0`. -/
def init_task_manager (numApp maxAppNum maxSyscallNum : Nat) : TaskManager :=
  let ready := { initTCB maxSyscallNum with task_status := TaskStatus.Ready }
  { num_app := numApp
    tasks := List.replicate maxAppNum ready
    current_task := 0 }

/-! ## Syscall gateway (`src/os/src/syscall/mod.rs`) -/

/-- The handler selected by the `match syscall_id` of the gateway in
`src/os/src/syscall/mod.rs:35-46`: the five known ids (64 write, 93 exit,
124 yield, 169 get_time, 410 task_info) or the unsupported arm, which
prints a message and yields `-1`. -/
inductive Dispatched
  | write (fd buf len : Nat)
  | exit (code : Nat)
  | yield
  | get_time (ts tz : Nat)
  | task_info (ti : Nat)
  | unsupported (id : Nat)
deriving DecidableEq, Repr

/-- The arm of the gateway `match` chosen for `syscall_id` with raw
argument words `args` (`src/os/src/syscall/mod.rs:35-46`). -/
def dispatch_arm (syscall_id : Nat) (args : Nat × Nat × Nat) : Dispatched :=
  if syscall_id = 64 then Dispatched.write args.1 args.2.1 args.2.2
  else if syscall_id = 93 then Dispatched.exit args.1
  else if syscall_id = 124 then Dispatched.yield
  else if syscall_id = 169 then Dispatched.get_time args.1 args.2.1
  else if syscall_id = 410 then Dispatched.task_info args.1
  else Dispatched.unsupported syscall_id

/-- `syscall` (`src/os/src/syscall/mod.rs:33-47`), the recording phase and
the dispatch decision: `update_syscall_times(syscall_id);` runs first and
unconditionally, then the `match` selects a handler (or the unsupported
arm).  The result pairs the task-manager state the chosen handler runs in
with the chosen arm; `none` models the panic inside
`update_syscall_times` on an out-of-bounds id. -/
def syscall_gateway (now syscall_id : Nat) (args : Nat × Nat × Nat)
    (tm : TaskManager) : Option (TaskManager × Dispatched) :=
  match update_syscall_times now syscall_id tm with
  | none => none
  | some tm1 => some (tm1, dispatch_arm syscall_id args)

/-! ## Process syscalls (`src/os/src/syscall/process.rs`) -/

/-- `TimeVal` (`src/os/src/syscall/process.rs:10-15`). -/
structure TimeVal where
  sec : Nat
  usec : Nat
deriving DecidableEq, Repr

/-- `TaskInfo` (`src/os/src/syscall/process.rs:19-26`): exactly three
fields — status, per-id syscall counts, total running time. -/
structure TaskInfo where
  status : TaskStatus
  syscall_times : List Nat
  time : Nat
deriving DecidableEq, Repr

/-- `TaskInfo::modify_task_info` (`src/os/src/syscall/process.rs:30-40`).
The raw `*mut TaskInfo` is the `Option TaskInfo` cell: on a null pointer
it returns `Err("Null pointer for TaskInfo")` without touching the cell;
otherwise it overwrites the cell with
`{status: Running, syscall_times: get_syscall_times(), time:
get_current_task_time()}` and returns `Ok(())`. -/
def modify_task_info (tm : TaskManager) (ptr : Option TaskInfo) :
    Except String Unit × Option TaskInfo :=
  match ptr with
  | none => (Except.error "Null pointer for TaskInfo", none)
  | some _ =>
    (Except.ok (),
     some { status := TaskStatus.Running
            syscall_times := get_syscall_times tm
            time := get_current_task_time tm })

/-- `sys_task_info` (`src/os/src/syscall/process.rs:74-77`):
`modify_task_info(ti).map(|_| 0)`, the error replaced by
`"Failed to modify task info"`. -/
def sys_task_info (tm : TaskManager) (ptr : Option TaskInfo) :
    Except String Int × Option TaskInfo :=
  match modify_task_info tm ptr with
  | (Except.ok _, cell) => (Except.ok 0, cell)
  | (Except.error _, cell) => (Except.error "Failed to modify task info", cell)

/-- `sys_get_time` (`src/os/src/syscall/process.rs:58-71`).  The raw
`*mut TimeVal` is the `Option TimeVal` cell; `us` is the value
`get_time_us()` returns during the call.  Null pointer: `Err`, cell
untouched.  Otherwise the cell becomes
`TimeVal { sec: us / 1_000_000, usec: us % 1_000_000 }` and the result is
`Ok(0)`. -/
def sys_get_time (ptr : Option TimeVal) (us : Nat) :
    Except String Int × Option TimeVal :=
  match ptr with
  | none => (Except.error "Null pointer for TimeVal", none)
  | some _ => (Except.ok 0, some { sec := us / 1000000, usec := us % 1000000 })

/-! ## Processor (`src/os/src/task/processor.rs`) -/

/-- Outcome of one pass through a scheduling path: a task was dispatched
(control switched into it), the kernel halted (panic, terminating
condition reported), or the path did nothing and control continues
(the next loop iteration runs). -/
inductive SchedOutcome
  | dispatched (next : Nat)
  | halted
  | continued
deriving DecidableEq, Repr

/-- The scheduling outcome of `TaskManager::run_next_task`
(`src/os/src/task/mod.rs:130-154`): a found task is switched into;
otherwise the kernel panics with `"All applications completed!"`
(a reported terminating condition). -/
def run_next_task_outcome (tm : TaskManager) : SchedOutcome :=
  match find_next_task tm with
  | some next => SchedOutcome.dispatched next
  | none => SchedOutcome.halted

/-- The `Processor` state (`src/os/src/task/processor.rs:20-26`):
`current` is the checked-out running task; `idle_task_cx` plays no role
in the properties here and is omitted.  The TCB type of that variant lives in a
module not present in the sources, so the slot is the abstract payload
`α`. -/
structure Processor (α : Type) where
  current : Option α
deriving DecidableEq, Repr

/-- One iteration of the `run_tasks` loop body
(`src/os/src/task/processor.rs:59-81`), given what `fetch_task()`
returned.  `Some(task)`: mark it Running (a mutation of the fetched TCB,
abstracted into the function `markRunning`), store it in
`processor.current`, and `__switch` into it (outcome `dispatched 0`, the
slot of the fetched task).  `None`: `warn!("no tasks available in
run_tasks")` and fall through — the enclosing `loop` simply runs the body
again (outcome `continued`, state unchanged). -/
def run_tasks_step {α : Type} (markRunning : α → α) (p : Processor α)
    (fetched : Option α) : Processor α × SchedOutcome :=
  match fetched with
  | some task => ({ current := some (markRunning task) }, SchedOutcome.dispatched 0)
  | none => (p, SchedOutcome.continued)

/-! ## Memory map/unmap (`src/os/src/task/processor.rs:124-181`)

The `MemorySet` type and its methods `include_allocated`,
`insert_framed_area`, `free_framed_area`, and `VirtAddr::aligned` live in
`src/os/src/mm`, which is not among the sources; they are modelled from
the spec below.  `PAGE_SIZE` lives in `config.rs`, also absent; the
examples in the spec (`map(0x1000, 0x1000, …)` page-aligned) fix it as 4096. -/

/-- Modelled from the spec: `PAGE_SIZE` from `config.rs` (absent from the
sources); the §8 examples of the spec use 0x1000-aligned page boundaries. -/
def PAGE_SIZE : Nat := 4096

/-- Modelled from the spec: a memory region `(start_addr, end_addr,
permissions)` (§3 Memory Region); an address space is its ordered
collection of regions (§3 Address Space). -/
structure MemorySet where
  areas : List (Nat × Nat × Nat)
deriving DecidableEq, Repr

/-- Modelled from the spec: `MemorySet::include_allocated start end`
(absent `mm` module) answers whether `[start, end)` intersects any
existing region of the address space (§4.4 Overlap). -/
def include_allocated (ms : MemorySet) (s e : Nat) : Bool :=
  ms.areas.any (fun a => max a.1 s < min a.2.1 e)

/-- Modelled from the spec: `MemorySet::insert_framed_area` (absent `mm`
module) inserts the new region into the address space (§4.4 "otherwise
inserts a new region and succeeds"). -/
def insert_framed_area (ms : MemorySet) (s e perm : Nat) : MemorySet :=
  { areas := ms.areas ++ [(s, e, perm)] }

/-- Modelled from the spec: `MemorySet::free_framed_area` (absent `mm`
module) removes the regions covered by `[s, e)` (§4.4 "removes the
covered region(s)").  Its `()` result is discarded by the caller. -/
def free_framed_area (ms : MemorySet) (s e : Nat) : MemorySet :=
  { areas := ms.areas.filter (fun a => ¬ (s ≤ a.1 ∧ a.2.1 ≤ e)) }

/-- Modelled from the spec: `VirtAddr::aligned` (absent `mm` module) holds
when the address sits on a page boundary (§3 "both addresses
page-aligned"). -/
def alignedVA (v : Nat) : Bool := v % PAGE_SIZE = 0

/-- `allocate_memory` (`src/os/src/task/processor.rs:124-154`), acting on
the address space of the current task: `-1` if `start % PAGE_SIZE != 0`; `-1`
if `port & !0x7 != 0` (some bit above the low three is set, i.e.
`port ≥ 8`) or `port & 0x7 == 0` (`port % 8 = 0`); `-1` if
`include_allocated(start, start + len)`; otherwise
`insert_framed_area(start, start + len, permissions)` and `0`.  The
`MapPermission` bits passed down are `(port << 1) | U`; the region
records the raw `port`. -/
def allocate_memory (ms : MemorySet) (start len port : Nat) :
    Int × MemorySet :=
  if start % PAGE_SIZE ≠ 0 then (-1, ms)
  else if 8 ≤ port ∨ port % 8 = 0 then (-1, ms)
  else if include_allocated ms start (start + len) then (-1, ms)
  else (0, insert_framed_area ms start (start + len) port)

/-- `free_memory` (`src/os/src/task/processor.rs:157-181`), acting on the
address space of the current task: `-1` if `start % PAGE_SIZE != 0`; `-1` if
`start_address` or `end_address` is not aligned; otherwise it calls
`free_framed_area(start, start + len)` — whose result it ignores — and
returns `0` unconditionally. -/
def free_memory (ms : MemorySet) (start len : Nat) : Int × MemorySet :=
  if start % PAGE_SIZE ≠ 0 then (-1, ms)
  else if ¬ alignedVA start then (-1, ms)
  else if ¬ alignedVA (start + len) then (-1, ms)
  else (0, free_framed_area ms start (start + len))

/-- Status of slot `i` of a task array (the `Option`-shaped read of
`tasks[i].task_status`). -/
def statusOf (l : List TCB) (i : Nat) : Option TaskStatus :=
  match l.get? i with
  | some t => some t.task_status
  | none => none

/-- The `first_scheduled_time` of slot `i` of a task array (the
`Option`-shaped read of `tasks[i].first_scheduled_time`; `none` when the
slot does not exist). -/
def firstSchedOf (l : List TCB) (i : Nat) : Option Nat :=
  match l.get? i with
  | some t => t.first_scheduled_time
  | none => none

/-- The `first_scheduled_time` of slot `i` of a task manager. -/
def first_sched_at (tm : TaskManager) (i : Nat) : Option Nat :=
  firstSchedOf tm.tasks i

/-- §3 Task Table invariant, strengthened form: every Running slot is the
current slot (this is what the call discipline of the scheduler maintains, and
it implies `AtMostOneRunning`). -/
def RunningOnlyCurrent (tm : TaskManager) : Prop :=
  ∀ i t, tm.tasks.get? i = some t →
    t.task_status = TaskStatus.Running → i = tm.current_task

/-- §3 Task Table invariant as claimed: at most one TCB has status
Running at any instant. -/
def AtMostOneRunning (tm : TaskManager) : Prop :=
  ∀ i j ti tj, tm.tasks.get? i = some ti → tm.tasks.get? j = some tj →
    ti.task_status = TaskStatus.Running →
    tj.task_status = TaskStatus.Running → i = j

/-! ## Concrete states used by witnesses and counterexamples -/

/-- A Ready TCB with one-entry telemetry arrays. -/
def tcbReadyW : TCB :=
  { task_status := TaskStatus.Ready
    task_syscall_times := [0]
    syscall_timestamps := [0]
    task_time := 0
    first_scheduled_time := none }

/-- Two tasks, slot 0 Running (current), slot 1 Ready. -/
def tmTwo : TaskManager :=
  { num_app := 2
    tasks := [{ tcbReadyW with task_status := TaskStatus.Running }, tcbReadyW]
    current_task := 0 }

/-- One task, Running, with telemetry `[2]`/`[5]`, run time 7,
first scheduled at 1. -/
def tcbTsA : TCB :=
  { task_status := TaskStatus.Running
    task_syscall_times := [2]
    syscall_timestamps := [5]
    task_time := 7
    first_scheduled_time := some 1 }

/-- Same as `tcbTsA` except for the syscall timestamps and the
first-scheduled time. -/
def tcbTsB : TCB :=
  { tcbTsA with syscall_timestamps := [9], first_scheduled_time := none }

/-- Manager holding just `tcbTsA`. -/
def tmTsA : TaskManager := { num_app := 1, tasks := [tcbTsA], current_task := 0 }

/-- Manager holding just `tcbTsB`. -/
def tmTsB : TaskManager := { num_app := 1, tasks := [tcbTsB], current_task := 0 }

/-- The empty address space. -/
def msEmpty : MemorySet := { areas := [] }

/-! ## Helper lemmas about `updateAt` and cyclic scanning -/

theorem get?_updateAt_self (f : TCB → TCB) :
    ∀ (i : Nat) (l : List TCB), (updateAt f i l).get? i = (l.get? i).map f
  | _, [] => by simp [updateAt]
  | 0, t :: ts => by simp [updateAt]
  | Nat.succ i, t :: ts => by
    simpa [updateAt] using get?_updateAt_self f i ts

theorem get?_updateAt_ne (f : TCB → TCB) :
    ∀ (i j : Nat) (l : List TCB), i ≠ j →
      (updateAt f i l).get? j = l.get? j
  | _, _, [], _ => by simp [updateAt]
  | 0, 0, t :: ts, h => absurd rfl h
  | 0, Nat.succ j, t :: ts, _ => by simp [updateAt]
  | Nat.succ i, 0, t :: ts, _ => by simp [updateAt]
  | Nat.succ i, Nat.succ j, t :: ts, h => by
    have hij : i ≠ j := fun he => h (by simp [he])
    simpa [updateAt] using get?_updateAt_ne f i j ts hij

theorem find?_map_range_eq_some (p : Nat → Bool) :
    ∀ (n : Nat) (f : Nat → Nat) (a : Nat),
      ((((List.range n).map f).find? p = some a) ↔
        ∃ k, k < n ∧ f k = a ∧ p (f k) = true ∧
          ∀ j, j < k → p (f j) = false)
  | 0, f, a => by simp
  | n + 1, f, a => by
    rw [List.range_succ_eq_map, List.map_cons, List.map_map]
    by_cases hp : p (f 0) = true
    · rw [List.find?_cons_of_pos _ hp]
      constructor
      · intro h
        refine ⟨0, Nat.succ_pos n, by simpa using h, hp, ?_⟩
        intro j hj
        exact absurd hj (Nat.not_lt_zero j)
      · rintro ⟨k, hk, rfl, hpk, hbefore⟩
        cases k with
        | zero => rfl
        | succ k' =>
          exact absurd hp (by simp [hbefore 0 (Nat.succ_pos k')])
    · rw [List.find?_cons_of_neg _ hp]
      have hpf : p (f 0) = false := by
        cases h0 : p (f 0)
        · rfl
        · exact absurd h0 hp
      have IH := find?_map_range_eq_some p n (fun i => f (i + 1)) a
      have hcomp : List.map (f ∘ Nat.succ) (List.range n)
          = (List.range n).map (fun i => f (i + 1)) := rfl
      rw [hcomp, IH]
      constructor
      · rintro ⟨k, hk, rfl, hpk, hbefore⟩
        refine ⟨k + 1, Nat.succ_lt_succ hk, rfl, hpk, ?_⟩
        intro j hj
        cases j with
        | zero => exact hpf
        | succ j' => exact hbefore j' (Nat.lt_of_succ_lt_succ hj)
      · rintro ⟨k, hk, rfl, hpk, hbefore⟩
        cases k with
        | zero => exact absurd hpk hp
        | succ k' =>
          exact ⟨k', Nat.lt_of_succ_lt_succ hk, rfl, hpk,
            fun j hj => hbefore (j + 1) (Nat.succ_lt_succ hj)⟩

theorem find?_map_range_eq_none (p : Nat → Bool) (f : Nat → Nat) (n : Nat) :
    (((List.range n).map f).find? p = none) ↔
      ∀ k, k < n → p (f k) = false := by
  rw [List.find?_eq_none]
  constructor
  · intro h k hk
    have hmem : f k ∈ (List.range n).map f :=
      List.mem_map_of_mem f (List.mem_range.mpr hk)
    have := h (f k) hmem
    cases hfk : p (f k)
    · rfl
    · exact absurd hfk this
  · intro h x hx
    rcases List.mem_map.mp hx with ⟨k, hk, rfl⟩
    simp [h k (List.mem_range.mp hk)]

/-- Scanning `k ↦ (c + 1 + k) % n` over `k < n` reaches every slot
`i < n`. -/
theorem cycle_mod_surj (n c i : Nat) (hn : 0 < n) (hi : i < n) :
    ∃ k, k < n ∧ (c + 1 + k) % n = i := by
  have hrlt : (c + 1) % n < n := Nat.mod_lt _ hn
  refine ⟨(n - (c + 1) % n + i) % n, Nat.mod_lt _ hn, ?_⟩
  rw [Nat.add_mod_mod]
  obtain ⟨q, hq⟩ : ∃ q, c + 1 = n * q + (c + 1) % n :=
    ⟨(c + 1) / n, (Nat.div_add_mod (c + 1) n).symm⟩
  have h4 : (c + 1) % n + (n - (c + 1) % n + i) = n + i := by omega
  calc (c + 1 + (n - (c + 1) % n + i)) % n
      = (n * q + ((c + 1) % n + (n - (c + 1) % n + i))) % n := by
        nth_rewrite 1 [hq]
        rw [Nat.add_assoc]
    _ = (n * q + (n + i)) % n := by rw [h4]
    _ = (n * (q + 1) + i) % n := by rw [Nat.mul_succ, Nat.add_assoc]
    _ = i % n := Nat.mul_add_mod _ _ _
    _ = i := Nat.mod_eq_of_lt hi

/-! ## C1 — round-robin next-task selection -/

/-- C1: for every task table of `num_app` tasks and every current index,
`find_next_task` scans the ids `(current + 1 + k) % num_app` for
`k = 0, …, num_app - 1` in order and returns the first whose status is
`Ready`; it returns `none` exactly when no slot `i < num_app` is
`Ready`. -/
theorem C1_find_next_task_round_robin (tm : TaskManager)
    (hn : 0 < tm.num_app) :
    (∀ j, find_next_task tm = some j →
      ∃ k, k < tm.num_app ∧ j = (tm.current_task + 1 + k) % tm.num_app ∧
        statusReadyAt tm.tasks j = true ∧
        ∀ k', k' < k →
          statusReadyAt tm.tasks
            ((tm.current_task + 1 + k') % tm.num_app) = false)
    ∧ (find_next_task tm = none ↔
        ∀ i, i < tm.num_app → statusReadyAt tm.tasks i = false) := by
  constructor
  · intro j hj
    simp only [find_next_task] at hj
    rcases (find?_map_range_eq_some _ _ _ _).mp hj with ⟨k, hk, hfk, hpk, hbef⟩
    exact ⟨k, hk, hfk.symm, by rwa [hfk] at hpk, hbef⟩
  · simp only [find_next_task]
    rw [find?_map_range_eq_none]
    constructor
    · intro h i hi
      rcases cycle_mod_surj tm.num_app tm.current_task i hn hi with ⟨k, hk, hke⟩
      have hpk := h k hk
      rwa [hke] at hpk
    · intro h k _
      exact h _ (Nat.mod_lt _ hn)

/-- Witness for C1 at a concrete two-task table. -/
theorem C1_witness :
    0 < tmTwo.num_app ∧
    (find_next_task tmTwo = none ↔
      ∀ i, i < tmTwo.num_app → statusReadyAt tmTwo.tasks i = false) :=
  ⟨by decide, (C1_find_next_task_round_robin tmTwo (by decide)).2⟩

/-! ## C3 — behaviour when no task is Ready -/

/-- C3 counterexample: the `run_tasks` loop body, when `fetch_task()`
yields nothing, leaves the processor unchanged and continues looping —
it does not report a terminating condition, refuting "every scheduling
path reports a terminating condition". -/
theorem C3_counterexample :
    run_tasks_step (fun t : Nat => t) { current := none } none =
      ({ current := none }, SchedOutcome.continued) ∧
    SchedOutcome.continued ≠ SchedOutcome.halted :=
  ⟨rfl, by decide⟩

/-- C3 (amended): when no task is Ready, the task-table path
`run_next_task` reports the terminating condition (the
all-applications-completed panic, modelled by `halted` / `none`), while
the processor loop `run_tasks` merely warns and continues its loop with
the state unchanged. -/
theorem C3_no_ready_outcomes {α : Type} (tm : TaskManager) (now : Nat)
    (mark : α → α) (p : Processor α) :
    (find_next_task tm = none →
      run_next_task_outcome tm = SchedOutcome.halted ∧
      run_next_task now tm = none) ∧
    run_tasks_step mark p none = (p, SchedOutcome.continued) := by
  constructor
  · intro h
    constructor
    · simp [run_next_task_outcome, h]
    · simp [run_next_task, h]
  · rfl

/-- Witness for C3 at a concrete table whose only task is Running. -/
theorem C3_witness :
    run_next_task_outcome tmTsA = SchedOutcome.halted ∧
    run_next_task 5 tmTsA = none :=
  (C3_no_ready_outcomes tmTsA 5 (fun t : Nat => t)
    { current := (none : Option Nat) }).1 (by decide)

/-! ## C5 — map validation -/

/-- C5: `allocate_memory` fails (result `-1`, address space unchanged)
when `start` is not page-aligned, when the permission bits are zero or
reach outside the read/write/execute set (`port = 0 ∨ 8 ≤ port`), or when
`[start, start + len)` intersects an existing region; otherwise it
inserts the new region and returns `0`. -/
theorem C5_allocate_memory_spec (ms : MemorySet) (start len port : Nat) :
    (start % PAGE_SIZE ≠ 0 → allocate_memory ms start len port = (-1, ms)) ∧
    (port = 0 ∨ 8 ≤ port → allocate_memory ms start len port = (-1, ms)) ∧
    (include_allocated ms start (start + len) = true →
      allocate_memory ms start len port = (-1, ms)) ∧
    (start % PAGE_SIZE = 0 → 0 < port → port < 8 →
      include_allocated ms start (start + len) = false →
      allocate_memory ms start len port =
        (0, insert_framed_area ms start (start + len) port)) := by
  refine ⟨?_, ?_, ?_, ?_⟩
  · intro h
    simp [allocate_memory, h]
  · intro h
    have hg : 8 ≤ port ∨ port % 8 = 0 := by omega
    simp only [allocate_memory]
    split_ifs
    · rfl
    · rfl
  · intro h
    simp only [allocate_memory]
    split_ifs
    · rfl
    · rfl
    · rfl
  · intro ha hp1 hp2 hov
    have hg : ¬ (8 ≤ port ∨ port % 8 = 0) := by
      rw [Nat.mod_eq_of_lt hp2]
      omega
    simp [allocate_memory, ha, hg, hov]

/-- Witness for C5: a fresh space accepts a read/write page and rejects a
misaligned or overlapping request. -/
theorem C5_witness :
    allocate_memory msEmpty 4096 4096 3 =
      (0, insert_framed_area msEmpty 4096 8192 3) ∧
    allocate_memory msEmpty 5 4096 3 = (-1, msEmpty) ∧
    allocate_memory (insert_framed_area msEmpty 4096 8192 3) 4096 4096 3 =
      (-1, insert_framed_area msEmpty 4096 8192 3) :=
  ⟨(C5_allocate_memory_spec msEmpty 4096 4096 3).2.2.2 (by decide) (by decide)
      (by decide) (by decide),
   (C5_allocate_memory_spec msEmpty 5 4096 3).1 (by decide),
   (C5_allocate_memory_spec (insert_framed_area msEmpty 4096 8192 3)
      4096 4096 3).2.2.1 (by decide)⟩

/-! ## C6 — unmap validation -/

/-- C6 counterexample: unmapping `[4096, 8192)` from the empty address
space — a range covered by no region at all — returns `0` (success), not
the `NotMapped` failure the claim requires. -/
theorem C6_counterexample :
    free_memory msEmpty 4096 4096 = (0, msEmpty) ∧
    (free_memory msEmpty 4096 4096).1 ≠ -1 := by
  constructor
  · rfl
  · decide

/-- C6 (amended): `free_memory` fails (result `-1`, space unchanged) when
either bound is not page-aligned; otherwise it hands the range to
`free_framed_area` and returns `0` unconditionally — an uncovered or
only-partly-covered range is not detected and no `NotMapped` failure is
reported. -/
theorem C6_free_memory_amended (ms : MemorySet) (start len : Nat) :
    (start % PAGE_SIZE ≠ 0 ∨ (start + len) % PAGE_SIZE ≠ 0 →
      free_memory ms start len = (-1, ms)) ∧
    (start % PAGE_SIZE = 0 → (start + len) % PAGE_SIZE = 0 →
      free_memory ms start len = (0, free_framed_area ms start (start + len)))
    := by
  constructor
  · intro h
    simp only [free_memory, alignedVA]
    rcases h with h | h
    · simp [h]
    · by_cases hs : start % PAGE_SIZE = 0
      · simp [hs, h]
      · simp [hs]
  · intro h1 h2
    simp [free_memory, alignedVA, h1, h2]

/-- Witness for C6 at concrete aligned and misaligned inputs. -/
theorem C6_witness :
    free_memory msEmpty 5 4096 = (-1, msEmpty) ∧
    free_memory msEmpty 8192 4096 =
      (0, free_framed_area msEmpty 8192 12288) :=
  ⟨(C6_free_memory_amended msEmpty 5 4096).1 (Or.inl (by decide)),
   (C6_free_memory_amended msEmpty 8192 4096).2 (by decide) (by decide)⟩

/-! ## C7 — task_info contents -/

/-- C7 counterexample: two task states that differ (only) in their per-id
syscall timestamps and their first-scheduled time produce the very same
`sys_task_info` output, so the output cannot contain either datum — the
`TaskInfo` record has no such fields. -/
theorem C7_counterexample :
    sys_task_info tmTsA
        (some { status := TaskStatus.UnInit, syscall_times := [], time := 0 })
      = sys_task_info tmTsB
        (some { status := TaskStatus.UnInit, syscall_times := [], time := 0 })
    ∧ tcbTsA.syscall_timestamps ≠ tcbTsB.syscall_timestamps
    ∧ tcbTsA.first_scheduled_time ≠ tcbTsB.first_scheduled_time :=
  ⟨rfl, by decide, by decide⟩

/-- C7 (amended): with a non-null pointer, `sys_task_info` overwrites the
output cell with exactly status `Running`, the per-id syscall counts of
the current task, and its total running time, and returns 0; with a null
pointer it returns an error (surfaced as a negative result) and leaves
the output cell untouched. -/
theorem C7_task_info_contents (tm : TaskManager) (x : TaskInfo) :
    sys_task_info tm (some x) =
      (Except.ok 0,
       some { status := TaskStatus.Running
              syscall_times := get_syscall_times tm
              time := get_current_task_time tm }) ∧
    sys_task_info tm none = (Except.error "Failed to modify task info", none)
    := ⟨rfl, rfl⟩

/-! ## C2 / C8 — telemetry recording in the syscall gateway -/

theorem getD_set_self (l : List Nat) (i a : Nat) (h : i < l.length) :
    (l.set i a).getD i 0 = a := by
  rw [List.getD_eq_getElem?_getD, List.getElem?_set_self h]
  rfl

/-- C2 counterexample: passing the unsupported syscall id 1 to the
gateway over a task whose telemetry arrays have length 1 makes
`update_syscall_times` index out of bounds: the kernel panics (`none`)
and no counter is incremented, refuting "for every syscall id, valid or
unsupported". -/
theorem C2_counterexample :
    syscall_gateway 5 1 (0, 0, 0) tmTsA = none ∧
    1 < tmTsA.num_app + 1 := by
  constructor
  · rfl
  · decide

/-- C2 (amended): for every syscall id within the bounds of the current
telemetry arrays of the current task, one invocation of the gateway increments that
per-id (u32, hence modulo `2 ^ 32`) counter by exactly one, sets its
timestamp to the clock value `now` (hence to a value `≥` the previous one
whenever the clock is monotone), and hands the so-updated state to the
dispatched arm — recording precedes dispatch, also for unsupported
ids. -/
theorem C2_gateway_records_before_dispatch
    (tm : TaskManager) (now syscall_id : Nat) (args : Nat × Nat × Nat)
    (t : TCB)
    (hcur : tm.tasks.get? tm.current_task = some t)
    (hid1 : syscall_id < t.task_syscall_times.length)
    (hid2 : syscall_id < t.syscall_timestamps.length) :
    ∃ tm1 t1,
      syscall_gateway now syscall_id args tm =
        some (tm1, dispatch_arm syscall_id args) ∧
      tm1.tasks.get? tm.current_task = some t1 ∧
      t1.task_syscall_times.getD syscall_id 0 =
        (t.task_syscall_times.getD syscall_id 0 + 1) % 2 ^ 32 ∧
      (t.task_syscall_times.getD syscall_id 0 + 1 < 2 ^ 32 →
        t1.task_syscall_times.getD syscall_id 0 =
          t.task_syscall_times.getD syscall_id 0 + 1) ∧
      t1.syscall_timestamps.getD syscall_id 0 = now ∧
      (t.syscall_timestamps.getD syscall_id 0 ≤ now →
        t.syscall_timestamps.getD syscall_id 0 ≤
          t1.syscall_timestamps.getD syscall_id 0) := by
  have hupd : update_syscall_times now syscall_id tm = some
      { tm with tasks :=
          updateAt (recordTimes now syscall_id) tm.current_task tm.tasks } := by
    simp only [update_syscall_times, hcur]
    rw [if_pos ⟨hid1, hid2⟩]
  refine ⟨⟨tm.num_app,
      updateAt (recordTimes now syscall_id) tm.current_task tm.tasks,
      tm.current_task⟩,
    recordTimes now syscall_id t, ?_, ?_, ?_, ?_, ?_, ?_⟩
  · simp only [syscall_gateway, hupd]
  · show (updateAt _ tm.current_task tm.tasks).get? tm.current_task = _
    rw [get?_updateAt_self, hcur]
    rfl
  · exact getD_set_self _ _ _ hid1
  · intro hlt
    show (t.task_syscall_times.set syscall_id _).getD syscall_id 0 = _
    rw [getD_set_self _ _ _ hid1, Nat.mod_eq_of_lt hlt]
  · exact getD_set_self _ _ _ hid2
  · intro hmono
    show _ ≤ (t.syscall_timestamps.set syscall_id now).getD syscall_id 0
    rw [getD_set_self _ _ _ hid2]
    exact hmono

/-- Witness for C2 at a concrete one-task state and syscall id 0. -/
theorem C2_witness :
    ∃ tm1 t1,
      syscall_gateway 5 0 (0, 0, 0) tmTsA = some (tm1, dispatch_arm 0 (0, 0, 0)) ∧
      tm1.tasks.get? tmTsA.current_task = some t1 ∧
      t1.task_syscall_times.getD 0 0 =
        (tcbTsA.task_syscall_times.getD 0 0 + 1) % 2 ^ 32 ∧
      (tcbTsA.task_syscall_times.getD 0 0 + 1 < 2 ^ 32 →
        t1.task_syscall_times.getD 0 0 =
          tcbTsA.task_syscall_times.getD 0 0 + 1) ∧
      t1.syscall_timestamps.getD 0 0 = 5 ∧
      (tcbTsA.syscall_timestamps.getD 0 0 ≤ 5 →
        tcbTsA.syscall_timestamps.getD 0 0 ≤
          t1.syscall_timestamps.getD 0 0) :=
  C2_gateway_records_before_dispatch tmTsA 5 0 (0, 0, 0) tcbTsA
    rfl (by decide) (by decide)

/-- C8: evaluation of the telemetry recorder at the failing input.  The
recorder indexes the fixed-length `task_syscall_times` array with the
raw, unchecked syscall id, so any id at or beyond `MAX_SYSCALL_NUM`
(here: id 2 against length-1 arrays) panics instead of recording — the
code contradicts the own "instead of panicking" comment of the gateway and
the statement "telemetry recording never fails" of the spec. -/
theorem C8_update_syscall_times_panics :
    update_syscall_times 7 2 tmTsA = none ∧
    update_syscall_times 7 0 tmTsA ≠ none := by
  constructor
  · rfl
  · decide

/-! ## C4 — `first_scheduled_time` is written exactly once -/

theorem updateAt_length (f : TCB → TCB) :
    ∀ (i : Nat) (l : List TCB), (updateAt f i l).length = l.length
  | 0, [] => rfl
  | Nat.succ _, [] => rfl
  | 0, t :: ts => rfl
  | Nat.succ i, t :: ts => by
    simpa [updateAt] using updateAt_length f i ts

theorem firstSchedOf_updateAt_pres (f : TCB → TCB)
    (hf : ∀ t, (f t).first_scheduled_time = t.first_scheduled_time)
    (k j : Nat) (l : List TCB) :
    firstSchedOf (updateAt f k l) j = firstSchedOf l j := by
  by_cases hkj : k = j
  · subst hkj
    unfold firstSchedOf
    rw [get?_updateAt_self]
    cases l.get? k with
    | none => rfl
    | some t => simp [hf t]
  · unfold firstSchedOf
    rw [get?_updateAt_ne _ _ _ _ hkj]

theorem firstSchedOf_updateAt_ne (f : TCB → TCB) (k j : Nat)
    (l : List TCB) (h : k ≠ j) :
    firstSchedOf (updateAt f k l) j = firstSchedOf l j := by
  unfold firstSchedOf
  rw [get?_updateAt_ne _ _ _ _ h]

theorem stampFirst_of_some (now : Nat) (t : TCB) (t0 : Nat)
    (h : t.first_scheduled_time = some t0) :
    (stampFirst now t).first_scheduled_time = some t0 := by
  simp [stampFirst, h]

theorem firstSchedOf_stamp_self_some (now k t0 : Nat) (l : List TCB)
    (h : firstSchedOf l k = some t0) :
    firstSchedOf (updateAt (stampFirst now) k l) k = some t0 := by
  unfold firstSchedOf at h ⊢
  rw [get?_updateAt_self]
  cases hg : l.get? k with
  | none => rw [hg] at h; cases h
  | some t =>
    rw [hg] at h
    simp [stampFirst_of_some now t t0 h]

theorem firstSchedOf_stamp_self_none (now k : Nat) (l : List TCB)
    (hlen : k < l.length) (h : firstSchedOf l k = none) :
    firstSchedOf (updateAt (stampFirst now) k l) k = some now := by
  unfold firstSchedOf at h ⊢
  rw [get?_updateAt_self]
  cases hg : l.get? k with
  | none =>
    have hle := List.get?_eq_none.mp hg
    omega
  | some t =>
    rw [hg] at h
    simp at h
    simp [stampFirst, h]

/-- Either-index form of the guarded stamp: the slot keeps an
already-present value, at every index. -/
theorem firstSchedOf_stamp_keeps (now k j t0 : Nat) (l : List TCB)
    (h : firstSchedOf l j = some t0) :
    firstSchedOf (updateAt (stampFirst now) k l) j = some t0 := by
  by_cases hkj : k = j
  · subst hkj
    exact firstSchedOf_stamp_self_some now k t0 l h
  · rw [firstSchedOf_updateAt_ne _ _ _ _ hkj]
    exact h

/-- `run_next_task`, unfolded at a successful `find_next_task`. -/
theorem run_next_task_eq (now : Nat) (tm : TaskManager) (next : Nat)
    (hfind : find_next_task tm = some next) :
    run_next_task now tm = some
      ⟨tm.num_app,
        updateAt (stampFirst now) next
          (updateAt (startClock now) next
            (updateAt (stopClock now) tm.current_task
              (updateAt setRunning next tm.tasks))),
        next⟩ := by
  simp only [run_next_task, hfind]

/-- `statusReadyAt` only holds at indices that exist in the array. -/
theorem statusReadyAt_lt_length (l : List TCB) (j : Nat)
    (h : statusReadyAt l j = true) : j < l.length := by
  by_contra hge
  push_neg at hge
  unfold statusReadyAt at h
  rw [List.get?_eq_none.mpr hge] at h
  cases h

/-- A selected next task is Ready (the `find` predicate holds at it). -/
theorem find_next_task_ready (tm : TaskManager) (next : Nat)
    (hfind : find_next_task tm = some next) :
    statusReadyAt tm.tasks next = true := by
  simp only [find_next_task] at hfind
  exact List.find?_some hfind

/-- C4: the `first_scheduled_time` of a task is governed by exactly two
writes, both guarded: once it holds `some t0`, the bootstrap dispatch,
suspend, exit, run-next and syscall-telemetry operations all leave it at
`some t0`; it is set to the dispatch clock on the first transition of a task
to Running (slot 0 in `run_first_task`, the selected slot in
`run_next_task`); and suspend, exit and telemetry recording never touch
it at all. -/
theorem C4_first_scheduled_set_once (tm : TaskManager)
    (now syscall_id i t0 : Nat) :
    (first_sched_at tm i = some t0 →
      first_sched_at (run_first_task now tm) i = some t0 ∧
      first_sched_at (mark_current_suspended tm) i = some t0 ∧
      first_sched_at (mark_current_exited tm) i = some t0 ∧
      (∀ tm1, run_next_task now tm = some tm1 →
        first_sched_at tm1 i = some t0) ∧
      (∀ tm1, update_syscall_times now syscall_id tm = some tm1 →
        first_sched_at tm1 i = some t0)) ∧
    (first_sched_at tm 0 = none → 0 < tm.tasks.length →
      first_sched_at (run_first_task now tm) 0 = some now) ∧
    (∀ next tm1, find_next_task tm = some next →
      run_next_task now tm = some tm1 →
      first_sched_at tm next = none →
      first_sched_at tm1 next = some now) ∧
    (first_sched_at (mark_current_suspended tm) i = first_sched_at tm i ∧
      first_sched_at (mark_current_exited tm) i = first_sched_at tm i ∧
      (∀ tm1, update_syscall_times now syscall_id tm = some tm1 →
        first_sched_at tm1 i = first_sched_at tm i)) := by
  have hboot : ∀ t, (bootDispatch now t).first_scheduled_time =
      t.first_scheduled_time := fun t => rfl
  have hrun : ∀ t, (setRunning t).first_scheduled_time =
      t.first_scheduled_time := fun t => rfl
  have hstop : ∀ t, (stopClock now t).first_scheduled_time =
      t.first_scheduled_time := fun t => rfl
  have hstart : ∀ t, (startClock now t).first_scheduled_time =
      t.first_scheduled_time := fun t => rfl
  have hready : ∀ t, (setReady t).first_scheduled_time =
      t.first_scheduled_time := fun t => rfl
  have hexited : ∀ t, (setExited t).first_scheduled_time =
      t.first_scheduled_time := fun t => rfl
  have hrecord : ∀ t, (recordTimes now syscall_id t).first_scheduled_time =
      t.first_scheduled_time := fun t => rfl
  have hupdeq : ∀ tm1, update_syscall_times now syscall_id tm = some tm1 →
      tm1.tasks = updateAt (recordTimes now syscall_id)
        tm.current_task tm.tasks ∧ tm1.current_task = tm.current_task := by
    intro tm1 h1
    unfold update_syscall_times at h1
    cases hg : tm.tasks.get? tm.current_task with
    | none => rw [hg] at h1; cases h1
    | some t =>
      rw [hg] at h1
      dsimp only at h1
      by_cases hb : syscall_id < t.task_syscall_times.length ∧
          syscall_id < t.syscall_timestamps.length
      · rw [if_pos hb] at h1
        cases h1
        exact ⟨rfl, rfl⟩
      · rw [if_neg hb] at h1
        cases h1
  refine ⟨?_, ?_, ?_, ?_, ?_, ?_⟩
  · intro h
    refine ⟨?_, ?_, ?_, ?_, ?_⟩
    · show firstSchedOf (updateAt (stampFirst now) 0
        (updateAt (bootDispatch now) 0 tm.tasks)) i = some t0
      have h1 : firstSchedOf (updateAt (bootDispatch now) 0 tm.tasks) i
          = some t0 := by
        rw [firstSchedOf_updateAt_pres _ hboot]
        exact h
      exact firstSchedOf_stamp_keeps now 0 i t0 _ h1
    · show firstSchedOf (updateAt setReady tm.current_task tm.tasks) i
        = some t0
      rw [firstSchedOf_updateAt_pres _ hready]
      exact h
    · show firstSchedOf (updateAt setExited tm.current_task tm.tasks) i
        = some t0
      rw [firstSchedOf_updateAt_pres _ hexited]
      exact h
    · intro tm1 h1
      cases hfind : find_next_task tm with
      | none => rw [run_next_task, hfind] at h1; cases h1
      | some next =>
        rw [run_next_task_eq now tm next hfind] at h1
        cases h1
        show firstSchedOf (updateAt (stampFirst now) next
          (updateAt (startClock now) next
            (updateAt (stopClock now) tm.current_task
              (updateAt setRunning next tm.tasks)))) i = some t0
        have h2 : firstSchedOf (updateAt (startClock now) next
            (updateAt (stopClock now) tm.current_task
              (updateAt setRunning next tm.tasks))) i = some t0 := by
          rw [firstSchedOf_updateAt_pres _ hstart,
            firstSchedOf_updateAt_pres _ hstop,
            firstSchedOf_updateAt_pres _ hrun]
          exact h
        exact firstSchedOf_stamp_keeps now next i t0 _ h2
    · intro tm1 h1
      rcases hupdeq tm1 h1 with ⟨htasks, _⟩
      show firstSchedOf tm1.tasks i = some t0
      rw [htasks, firstSchedOf_updateAt_pres _ hrecord]
      exact h
  · intro h hlen
    show firstSchedOf (updateAt (stampFirst now) 0
      (updateAt (bootDispatch now) 0 tm.tasks)) 0 = some now
    have h1 : firstSchedOf (updateAt (bootDispatch now) 0 tm.tasks) 0
        = none := by
      rw [firstSchedOf_updateAt_pres _ hboot]
      exact h
    refine firstSchedOf_stamp_self_none now 0 _ ?_ h1
    rw [updateAt_length]
    exact hlen
  · intro next tm1 hfind h1 hnone
    rw [run_next_task_eq now tm next hfind] at h1
    cases h1
    show firstSchedOf (updateAt (stampFirst now) next
      (updateAt (startClock now) next
        (updateAt (stopClock now) tm.current_task
          (updateAt setRunning next tm.tasks)))) next = some now
    have h2 : firstSchedOf (updateAt (startClock now) next
        (updateAt (stopClock now) tm.current_task
          (updateAt setRunning next tm.tasks))) next = none := by
      rw [firstSchedOf_updateAt_pres _ hstart,
        firstSchedOf_updateAt_pres _ hstop,
        firstSchedOf_updateAt_pres _ hrun]
      exact hnone
    refine firstSchedOf_stamp_self_none now next _ ?_ h2
    rw [updateAt_length, updateAt_length, updateAt_length]
    exact statusReadyAt_lt_length tm.tasks next
      (find_next_task_ready tm next hfind)
  · show firstSchedOf (updateAt setReady tm.current_task tm.tasks) i = _
    rw [firstSchedOf_updateAt_pres _ hready]
    rfl
  · show firstSchedOf (updateAt setExited tm.current_task tm.tasks) i = _
    rw [firstSchedOf_updateAt_pres _ hexited]
    rfl
  · intro tm1 h1
    rcases hupdeq tm1 h1 with ⟨htasks, _⟩
    show firstSchedOf tm1.tasks i = _
    rw [htasks, firstSchedOf_updateAt_pres _ hrecord]
    rfl

/-- Witness for C4 at a concrete one-task state whose
`first_scheduled_time` is already `some 1`. -/
theorem C4_witness :
    first_sched_at (run_first_task 9 tmTsA) 0 = some 1 ∧
    first_sched_at (mark_current_suspended tmTsA) 0 = some 1 ∧
    first_sched_at (mark_current_exited tmTsA) 0 = some 1 :=
  ⟨((C4_first_scheduled_set_once tmTsA 9 0 0 1).1 rfl).1,
   ((C4_first_scheduled_set_once tmTsA 9 0 0 1).1 rfl).2.1,
   ((C4_first_scheduled_set_once tmTsA 9 0 0 1).1 rfl).2.2.1⟩

/-! ## C9 — at most one Running task -/

theorem statusOf_updateAt_pres (f : TCB → TCB)
    (hf : ∀ t, (f t).task_status = t.task_status)
    (k j : Nat) (l : List TCB) :
    statusOf (updateAt f k l) j = statusOf l j := by
  by_cases hkj : k = j
  · subst hkj
    unfold statusOf
    rw [get?_updateAt_self]
    cases l.get? k with
    | none => rfl
    | some t => simp [hf t]
  · unfold statusOf
    rw [get?_updateAt_ne _ _ _ _ hkj]

theorem statusOf_updateAt_ne (f : TCB → TCB) (k j : Nat) (l : List TCB)
    (h : k ≠ j) : statusOf (updateAt f k l) j = statusOf l j := by
  unfold statusOf
  rw [get?_updateAt_ne _ _ _ _ h]

theorem statusOf_eq_some (l : List TCB) (i : Nat) (s : TaskStatus) :
    statusOf l i = some s ↔ ∃ t, l.get? i = some t ∧ t.task_status = s := by
  unfold statusOf
  cases hg : l.get? i with
  | none => simp
  | some t => simp

theorem stampFirst_status (now : Nat) (t : TCB) :
    (stampFirst now t).task_status = t.task_status := by
  unfold stampFirst
  split <;> rfl

/-- C9: the strengthened invariant "every Running slot is the current
slot" holds in the boot state and is preserved by the bootstrap dispatch
(from a state with no Running task), by suspend and exit marking, by the
suspend-then-run-next and exit-then-run-next scheduling operations, and
by telemetry recording; it implies the claimed "at most one TCB is
Running at any instant". -/
theorem C9_at_most_one_running (tm : TaskManager)
    (now syscall_id numApp maxAppNum maxSyscallNum : Nat) :
    RunningOnlyCurrent (init_task_manager numApp maxAppNum maxSyscallNum) ∧
    ((∀ i t, tm.tasks.get? i = some t →
        t.task_status ≠ TaskStatus.Running) →
      tm.current_task = 0 → RunningOnlyCurrent (run_first_task now tm)) ∧
    (RunningOnlyCurrent tm →
      RunningOnlyCurrent (mark_current_suspended tm)) ∧
    (RunningOnlyCurrent tm → RunningOnlyCurrent (mark_current_exited tm)) ∧
    (RunningOnlyCurrent tm → ∀ tm1,
      suspend_current_and_run_next now tm = some tm1 →
      RunningOnlyCurrent tm1) ∧
    (RunningOnlyCurrent tm → ∀ tm1,
      exit_current_and_run_next now tm = some tm1 →
      RunningOnlyCurrent tm1) ∧
    (RunningOnlyCurrent tm → ∀ tm1,
      update_syscall_times now syscall_id tm = some tm1 →
      RunningOnlyCurrent tm1) ∧
    (RunningOnlyCurrent tm → AtMostOneRunning tm) := by
  have hstamp : ∀ t, (stampFirst now t).task_status = t.task_status :=
    stampFirst_status now
  have hstart : ∀ t, (startClock now t).task_status = t.task_status :=
    fun t => rfl
  have hstop : ∀ t, (stopClock now t).task_status = t.task_status :=
    fun t => rfl
  have hrecord : ∀ t, (recordTimes now syscall_id t).task_status =
      t.task_status := fun t => rfl
  have hrn : ∀ tmx : TaskManager, (∀ i t, tmx.tasks.get? i = some t →
      t.task_status ≠ TaskStatus.Running) →
      ∀ tm1, run_next_task now tmx = some tm1 → RunningOnlyCurrent tm1 := by
    intro tmx hno tm1 h1
    cases hfind : find_next_task tmx with
    | none => rw [run_next_task, hfind] at h1; cases h1
    | some next =>
      rw [run_next_task_eq now tmx next hfind] at h1
      cases h1
      intro i t hget hrun
      show i = next
      by_cases hin : i = next
      · exact hin
      · exfalso
        have hst : statusOf (updateAt (stampFirst now) next
            (updateAt (startClock now) next
              (updateAt (stopClock now) tmx.current_task
                (updateAt setRunning next tmx.tasks)))) i
            = statusOf tmx.tasks i := by
          rw [statusOf_updateAt_pres _ hstamp,
            statusOf_updateAt_pres _ hstart,
            statusOf_updateAt_pres _ hstop,
            statusOf_updateAt_ne _ _ _ _ (fun h => hin h.symm)]
        have h2 : statusOf tmx.tasks i = some TaskStatus.Running := by
          rw [← hst]
          unfold statusOf
          rw [hget]
          simp [hrun]
        rcases (statusOf_eq_some tmx.tasks i TaskStatus.Running).mp h2 with
          ⟨t', hg', hs'⟩
        exact hno i t' hg' hs'
  have hnorunS : RunningOnlyCurrent tm → ∀ i t,
      (mark_current_suspended tm).tasks.get? i = some t →
      t.task_status ≠ TaskStatus.Running := by
    intro hroc i t hget hrun
    dsimp only [mark_current_suspended] at hget
    by_cases hic : i = tm.current_task
    · subst hic
      rw [get?_updateAt_self] at hget
      cases hg : tm.tasks.get? tm.current_task with
      | none => rw [hg] at hget; cases hget
      | some t' =>
        rw [hg] at hget
        cases hget
        cases hrun
    · rw [get?_updateAt_ne _ _ _ _ (fun h => hic h.symm)] at hget
      exact hic (hroc i t hget hrun)
  have hnorunE : RunningOnlyCurrent tm → ∀ i t,
      (mark_current_exited tm).tasks.get? i = some t →
      t.task_status ≠ TaskStatus.Running := by
    intro hroc i t hget hrun
    dsimp only [mark_current_exited] at hget
    by_cases hic : i = tm.current_task
    · subst hic
      rw [get?_updateAt_self] at hget
      cases hg : tm.tasks.get? tm.current_task with
      | none => rw [hg] at hget; cases hget
      | some t' =>
        rw [hg] at hget
        cases hget
        cases hrun
    · rw [get?_updateAt_ne _ _ _ _ (fun h => hic h.symm)] at hget
      exact hic (hroc i t hget hrun)
  refine ⟨?_, ?_, ?_, ?_, ?_, ?_, ?_, ?_⟩
  · intro i t hget hrun
    exfalso
    dsimp only [init_task_manager] at hget
    rw [List.get?_eq_getElem?, List.getElem?_replicate] at hget
    by_cases hi : i < maxAppNum
    · rw [if_pos hi] at hget
      cases hget
      cases hrun
    · rw [if_neg hi] at hget
      cases hget
  · intro hno hcur0 i t hget hrun
    dsimp only [run_first_task] at hget ⊢
    by_cases hi0 : i = 0
    · subst hi0
      exact hcur0.symm
    · exfalso
      rw [get?_updateAt_ne _ _ _ _ (fun h => hi0 h.symm),
        get?_updateAt_ne _ _ _ _ (fun h => hi0 h.symm)] at hget
      exact hno i t hget hrun
  · intro hroc i t hget hrun
    dsimp only [mark_current_suspended] at hget ⊢
    by_cases hic : i = tm.current_task
    · exact hic
    · rw [get?_updateAt_ne _ _ _ _ (fun h => hic h.symm)] at hget
      exact hroc i t hget hrun
  · intro hroc i t hget hrun
    dsimp only [mark_current_exited] at hget ⊢
    by_cases hic : i = tm.current_task
    · exact hic
    · rw [get?_updateAt_ne _ _ _ _ (fun h => hic h.symm)] at hget
      exact hroc i t hget hrun
  · intro hroc tm1 h1
    exact hrn (mark_current_suspended tm) (hnorunS hroc) tm1 h1
  · intro hroc tm1 h1
    exact hrn (mark_current_exited tm) (hnorunE hroc) tm1 h1
  · intro hroc tm1 h1
    have hupdeq : tm1.tasks = updateAt (recordTimes now syscall_id)
        tm.current_task tm.tasks ∧ tm1.current_task = tm.current_task := by
      unfold update_syscall_times at h1
      cases hg : tm.tasks.get? tm.current_task with
      | none => rw [hg] at h1; cases h1
      | some t =>
        rw [hg] at h1
        dsimp only at h1
        by_cases hb : syscall_id < t.task_syscall_times.length ∧
            syscall_id < t.syscall_timestamps.length
        · rw [if_pos hb] at h1
          cases h1
          exact ⟨rfl, rfl⟩
        · rw [if_neg hb] at h1
          cases h1
    intro i t hget hrun
    rw [hupdeq.1] at hget
    rw [hupdeq.2]
    by_cases hic : i = tm.current_task
    · exact hic
    · rw [get?_updateAt_ne _ _ _ _ (fun h => hic h.symm)] at hget
      exact hroc i t hget hrun
  · intro hroc i j ti tj hgi hgj hri hrj
    rw [hroc i ti hgi hri, hroc j tj hgj hrj]

/-- `tmTwo` satisfies the strengthened invariant: its only Running slot
is the current one. -/
theorem tmTwo_running_only_current : RunningOnlyCurrent tmTwo := by
  intro i t hget hrun
  match i, hget with
  | 0, _ => rfl
  | 1, hget =>
    exfalso
    have ht : t = tcbReadyW := by
      simpa [tmTwo] using hget.symm
    rw [ht] at hrun
    cases hrun
  | (n + 2), hget =>
    exfalso
    simp [tmTwo] at hget

/-- Witness for C9: the boot state of a 2-of-4-slot table satisfies the
invariant, and the concrete state `tmTwo` satisfies at-most-one-Running. -/
theorem C9_witness :
    RunningOnlyCurrent (init_task_manager 2 4 1) ∧
    AtMostOneRunning tmTwo :=
  ⟨(C9_at_most_one_running tmTwo 5 0 2 4 1).1,
   (C9_at_most_one_running tmTwo 5 0 2 4 1).2.2.2.2.2.2.2
     tmTwo_running_only_current⟩

/-! ## C10 — get_time decomposition -/

/-- C10: with a non-null pointer, `sys_get_time` writes the pair
`(us / 1_000_000, us % 1_000_000)` and returns 0; the written `usec` is
below 1_000_000 and `sec * 1_000_000 + usec` recovers the clock value
exactly. -/
theorem C10_sys_get_time_lossless (us : Nat) (old : TimeVal) :
    sys_get_time (some old) us =
      (Except.ok 0, some { sec := us / 1000000, usec := us % 1000000 }) ∧
    us % 1000000 < 1000000 ∧
    us / 1000000 * 1000000 + us % 1000000 = us :=
  ⟨rfl, by omega, by omega⟩

end RCore
